import Mathlib

/-!
Verification development for the `sagemaker_xgboost_hpo.ipynb` notebook
(repository `sagemaker-workshop-101`).

The notebook's own logic, embedded below, consists of:
* the HPO status polling loop (cell 25):
    `hpo_state = "InProgress"`
    `while hpo_state == "InProgress":`
    `    hpo_state = describe_hyper_parameter_tuning_job(...)["HyperParameterTuningJobStatus"]`
    `    print("-", end=""); time.sleep(60)`
  modelled as a fuel-bounded recursion over an abstract status source
  (one query per iteration index, counting queries and sleeps);
* the column transforms (cell 9): the `no_previous_contact` indicator,
  the `drop` of the six economic columns, and `pd.get_dummies`;
* the shuffle/split (cell 11): `np.split(df.sample(frac=1, random_state=1729),
  [int(0.7*len(df)), int(0.9*len(df))])`;
* the CSV serialization (cell 11): `pd.concat([part["y_yes"],
  part.drop(["y_no","y_yes"], axis=1)], axis=1).to_csv(..., index=False, header=False)`.
-/

/-- Status values of a tuning job as listed in the data model:
{Pending, InProgress, Completed, Failed, Stopped}. -/
inductive Status where
  | pending
  | inProgress
  | completed
  | failed
  | stopped
deriving DecidableEq, Repr

/-- Terminal statuses: the data model says a job is terminal once its status
leaves InProgress/Pending. -/
def isTerminal : Status → Bool
  | Status.pending => false
  | Status.inProgress => false
  | _ => true

/-- Outcome of a run of the polling loop: either the loop exited normally
(final `hpo_state`, number of status queries made, number of 60-second sleeps
made), or a status query raised and the error propagated out of the loop
(again with the query and sleep counts at that point), or the fuel bound of
the model was exhausted (the real loop is unbounded). -/
inductive PollResult (ε : Type) where
  | finished (st : Status) (queries sleeps : Nat)
  | errored (e : ε) (queries sleeps : Nat)
  | outOfFuel
deriving DecidableEq, Repr

/-- Body-and-test of the notebook's `while hpo_state == "InProgress"` loop.
`st` is the current value of `hpo_state`, `i` is the number of queries (and
sleeps) made so far; the external service is an abstract status source
`src : Nat → Except ε Status` giving the result of the (i+1)-th query.
Each executed iteration queries once, then prints and sleeps once; a query
that raises propagates immediately (no sleep after it, no retry). `fuel`
bounds the number of iterations of the model only. -/
def pollAux (src : Nat → Except ε Status) : Status → Nat → Nat → PollResult ε
  | st, 0, i =>
    if st = Status.inProgress then PollResult.outOfFuel else PollResult.finished st i i
  | st, fuel + 1, i =>
    if st = Status.inProgress then
      match src i with
      | Except.error e => PollResult.errored e (i + 1) i
      | Except.ok st' => pollAux src st' fuel (i + 1)
    else PollResult.finished st i i

/-- The polling loop of cell 25: `hpo_state` starts at `"InProgress"` and the
loop runs until it is no longer `"InProgress"`. -/
def pollLoop (src : Nat → Except ε Status) (fuel : Nat) : PollResult ε :=
  pollAux src Status.inProgress fuel 0

/-- Status source used in concrete witness runs: two InProgress answers, then
Completed forever. -/
def srcTwoThenDone : Nat → Except String Status := fun i =>
  if i < 2 then Except.ok Status.inProgress else Except.ok Status.completed

/-- Status source used in concrete witness runs: two InProgress answers, then
an error on the third query. -/
def srcTwoThenBoom : Nat → Except String Status := fun i =>
  if i < 2 then Except.ok Status.inProgress else Except.error "boom"

theorem pollAux_exit (src : Nat → Except ε Status) (st : Status)
    (h : st ≠ Status.inProgress) (fuel i : Nat) :
    pollAux src st fuel i = PollResult.finished st i i := by
  cases fuel <;> simp [pollAux, h]

theorem pollAux_zero_inProgress (src : Nat → Except ε Status) (i : Nat) :
    pollAux src Status.inProgress 0 i = PollResult.outOfFuel := by
  simp [pollAux]

theorem pollAux_step_ok (src : Nat → Except ε Status) (st' : Status) (fuel i : Nat)
    (h : src i = Except.ok st') :
    pollAux src Status.inProgress (fuel + 1) i = pollAux src st' fuel (i + 1) := by
  rw [pollAux, if_pos rfl, h]

theorem pollAux_step_err (src : Nat → Except ε Status) (e : ε) (fuel i : Nat)
    (h : src i = Except.error e) :
    pollAux src Status.inProgress (fuel + 1) i = PollResult.errored e (i + 1) i := by
  rw [pollAux, if_pos rfl, h]

theorem pollAux_run_to_terminal (src : Nat → Except ε Status) (t : Status)
    (ht : t ≠ Status.inProgress) :
    ∀ m i fuel, (∀ k, k < m → src (i + k) = Except.ok Status.inProgress) →
      src (i + m) = Except.ok t → m < fuel →
      pollAux src Status.inProgress fuel i = PollResult.finished t (i + m + 1) (i + m + 1) := by
  intro m
  induction m with
  | zero =>
    intro i fuel _ hterm hfuel
    obtain ⟨fuel', rfl⟩ : ∃ f, fuel = f + 1 := ⟨fuel - 1, by omega⟩
    have hi : src i = Except.ok t := hterm
    rw [pollAux_step_ok src t fuel' i hi, pollAux_exit src t ht]
  | succ m ih =>
    intro i fuel hpre hterm hfuel
    obtain ⟨fuel', rfl⟩ : ∃ f, fuel = f + 1 := ⟨fuel - 1, by omega⟩
    have h0 : src i = Except.ok Status.inProgress := by
      have := hpre 0 (Nat.succ_pos m)
      simpa using this
    rw [pollAux_step_ok src Status.inProgress fuel' i h0]
    have hpre' : ∀ k, k < m → src (i + 1 + k) = Except.ok Status.inProgress := by
      intro k hk
      have h1 := hpre (k + 1) (by omega)
      have harith : i + (k + 1) = i + 1 + k := by omega
      rwa [harith] at h1
    have hterm' : src (i + 1 + m) = Except.ok t := by
      have harith : i + (m + 1) = i + 1 + m := by omega
      rwa [harith] at hterm
    have h2 := ih (i + 1) fuel' hpre' hterm' (by omega)
    have harith : i + 1 + m + 1 = i + (m + 1) + 1 := by omega
    rwa [harith] at h2

theorem pollAux_finished_ne_inProgress (src : Nat → Except ε Status) :
    ∀ fuel st i stf q s, pollAux src st fuel i = PollResult.finished stf q s →
      stf ≠ Status.inProgress ∧ q = s ∧ i ≤ q ∧ (st = Status.inProgress → i < q) := by
  intro fuel
  induction fuel with
  | zero =>
    intro st i stf q s h
    by_cases hst : st = Status.inProgress
    · rw [hst, pollAux_zero_inProgress] at h
      exact absurd h (by simp)
    · rw [pollAux_exit src st hst] at h
      injection h with h1 h2 h3
      subst h1; subst h2; subst h3
      exact ⟨hst, rfl, Nat.le_refl _, fun hc => absurd hc hst⟩
  | succ fuel ih =>
    intro st i stf q s h
    by_cases hst : st = Status.inProgress
    · subst hst
      cases hsi : src i with
      | error e =>
        rw [pollAux_step_err src e fuel i hsi] at h
        exact absurd h (by simp)
      | ok st' =>
        rw [pollAux_step_ok src st' fuel i hsi] at h
        obtain ⟨ha, hb, hc, _⟩ := ih st' (i + 1) stf q s h
        exact ⟨ha, hb, by omega, fun _ => by omega⟩
    · rw [pollAux_exit src st hst] at h
      injection h with h1 h2 h3
      subst h1; subst h2; subst h3
      exact ⟨hst, rfl, Nat.le_refl _, fun hc => absurd hc hst⟩

/-- Claim C1: for a status source answering InProgress for the first M queries
and a fixed terminal value on every query thereafter, the polling loop makes
exactly M + 1 status queries and the final value of `hpo_state` is that
terminal value (for any fuel bound large enough to cover the run, since the
real loop is unbounded). -/
theorem pollLoop_runs_m_plus_one_queries (src : Nat → Except ε Status) (t : Status)
    (M fuel : Nat) (ht : isTerminal t = true)
    (hpre : ∀ i, i < M → src i = Except.ok Status.inProgress)
    (hpost : ∀ i, M ≤ i → src i = Except.ok t)
    (hfuel : M < fuel) :
    pollLoop src fuel = PollResult.finished t (M + 1) (M + 1) := by
  have ht' : t ≠ Status.inProgress := by
    intro hc
    rw [hc] at ht
    exact absurd ht (by decide)
  have h := pollAux_run_to_terminal src t ht' M 0 fuel
    (fun k hk => by simpa using hpre k hk)
    (by simpa using hpost M (Nat.le_refl M)) hfuel
  simpa [pollLoop] using h

theorem pollLoop_c1_witness :
    isTerminal Status.completed = true ∧
      pollLoop srcTwoThenDone 5 = PollResult.finished Status.completed 3 3 :=
  ⟨rfl, pollLoop_runs_m_plus_one_queries srcTwoThenDone Status.completed 2 5 rfl
    (fun i hi => by
      unfold srcTwoThenDone
      rw [if_pos hi])
    (fun i hi => by
      unfold srcTwoThenDone
      rw [if_neg (by omega)])
    (by omega)⟩

/-- Claim C2, counterexample to the claim as stated: a status source that
answers Pending on the very first query makes the loop exit at once (the
loop condition only checks for InProgress), so the loop can signal completion
with the non-terminal status Pending. -/
theorem pollLoop_c2_counterexample :
    pollLoop (fun _ => (Except.ok Status.pending : Except String Status)) 5 =
      PollResult.finished Status.pending 1 1 ∧ isTerminal Status.pending = false :=
  ⟨rfl, rfl⟩

/-- Claim C2, amended: whenever the polling loop exits normally, the status it
finishes with is never InProgress (but it can be Pending, since the loop
condition compares against InProgress only). -/
theorem pollLoop_exit_ne_inProgress (src : Nat → Except ε Status) (fuel : Nat)
    (stf : Status) (q s : Nat)
    (h : pollLoop src fuel = PollResult.finished stf q s) :
    stf ≠ Status.inProgress :=
  (pollAux_finished_ne_inProgress src fuel Status.inProgress 0 stf q s h).1

theorem pollLoop_c2_witness : Status.completed ≠ Status.inProgress :=
  pollLoop_exit_ne_inProgress srcTwoThenDone 5 Status.completed 3 3 rfl

theorem pollAux_error_run (src : Nat → Except ε Status) (e : ε) :
    ∀ j i fuel, (∀ k, k < j → src (i + k) = Except.ok Status.inProgress) →
      src (i + j) = Except.error e → j < fuel →
      pollAux src Status.inProgress fuel i = PollResult.errored e (i + j + 1) (i + j) := by
  intro j
  induction j with
  | zero =>
    intro i fuel _ herr hfuel
    obtain ⟨fuel', rfl⟩ : ∃ f, fuel = f + 1 := ⟨fuel - 1, by omega⟩
    have hi : src i = Except.error e := herr
    rw [pollAux_step_err src e fuel' i hi]
    rfl
  | succ j ih =>
    intro i fuel hpre herr hfuel
    obtain ⟨fuel', rfl⟩ : ∃ f, fuel = f + 1 := ⟨fuel - 1, by omega⟩
    have h0 : src i = Except.ok Status.inProgress := by
      have := hpre 0 (Nat.succ_pos j)
      simpa using this
    rw [pollAux_step_ok src Status.inProgress fuel' i h0]
    have hpre' : ∀ k, k < j → src (i + 1 + k) = Except.ok Status.inProgress := by
      intro k hk
      have h1 := hpre (k + 1) (by omega)
      have harith : i + (k + 1) = i + 1 + k := by omega
      rwa [harith] at h1
    have herr' : src (i + 1 + j) = Except.error e := by
      have harith : i + (j + 1) = i + 1 + j := by omega
      rwa [harith] at herr
    have h2 := ih (i + 1) fuel' hpre' herr' (by omega)
    have ha : i + 1 + j + 1 = i + (j + 1) + 1 := by omega
    have hb : i + 1 + j = i + (j + 1) := by omega
    rwa [ha, hb] at h2

theorem pollAux_ok_src_no_error (src : Nat → Except ε Status)
    (hok : ∀ i, ∃ st, src i = Except.ok st) :
    ∀ fuel st i e q s, pollAux src st fuel i ≠ PollResult.errored e q s := by
  intro fuel
  induction fuel with
  | zero =>
    intro st i e q s h
    by_cases hst : st = Status.inProgress
    · rw [hst, pollAux_zero_inProgress] at h
      exact absurd h (by simp)
    · rw [pollAux_exit src st hst] at h
      exact absurd h (by simp)
  | succ fuel ih =>
    intro st i e q s h
    by_cases hst : st = Status.inProgress
    · subst hst
      obtain ⟨st', hst'⟩ := hok i
      rw [pollAux_step_ok src st' fuel i hst'] at h
      exact ih st' (i + 1) e q s h
    · rw [pollAux_exit src st hst] at h
      exact absurd h (by simp)

/-- Claim C3: the loop catches nothing. If the first j queries answer
InProgress and the (j+1)-th query raises, the error propagates out of the
loop immediately: exactly j + 1 queries are made (no retry, no further
query) and only j sleeps (the run aborts mid-body). Conversely, if every
query succeeds, the loop never terminates with a propagated error. -/
theorem pollLoop_error_propagation (src : Nat → Except ε Status) (fuel : Nat) :
    (∀ j e, (∀ k, k < j → src k = Except.ok Status.inProgress) →
        src j = Except.error e → j < fuel →
        pollLoop src fuel = PollResult.errored e (j + 1) j) ∧
      ((∀ i, ∃ st, src i = Except.ok st) →
        ∀ e q s, pollLoop src fuel ≠ PollResult.errored e q s) := by
  constructor
  · intro j e hpre herr hfuel
    have h := pollAux_error_run src e j 0 fuel
      (fun k hk => by simpa using hpre k hk) (by simpa using herr) hfuel
    simpa [pollLoop] using h
  · intro hok e q s
    exact pollAux_ok_src_no_error src hok fuel Status.inProgress 0 e q s

theorem pollLoop_c3_witness :
    pollLoop srcTwoThenBoom 5 = PollResult.errored "boom" 3 2 :=
  (pollLoop_error_propagation srcTwoThenBoom 5).1 2 "boom"
    (fun k hk => by
      unfold srcTwoThenBoom
      rw [if_pos hk])
    (by
      unfold srcTwoThenBoom
      rw [if_neg (by omega)])
    (by omega)

/-- Claim C10: in every run of the loop in which all queries return a status
and the loop exits, the number of 60-second sleeps equals the number of
status queries (the body sleeps after every query, including the one that
first observes the non-InProgress status), and at least one query is made.
So the caller stays blocked one extra polling interval after the job is
already done. -/
theorem pollLoop_sleeps_eq_queries (src : Nat → Except ε Status) (fuel : Nat)
    (stf : Status) (q s : Nat)
    (h : pollLoop src fuel = PollResult.finished stf q s) :
    s = q ∧ 0 < q := by
  obtain ⟨_, hqs, _, hlt⟩ := pollAux_finished_ne_inProgress src fuel Status.inProgress 0 stf q s h
  exact ⟨hqs.symm, hlt rfl⟩

theorem pollLoop_c10_witness : (3 : Nat) = 3 ∧ 0 < (3 : Nat) :=
  pollLoop_sleeps_eq_queries srcTwoThenDone 5 Status.completed 3 3 rfl

/-- Cell 9: `df_data["no_previous_contact"] = np.where(df_data["pdays"] == 999, 1, 0)`
— the derived indicator for one row, given that row's pdays value. -/
def noPreviousContact (pdays : Int) : Int :=
  if pdays = 999 then 1 else 0

/-- The whole derived column: np.where applied elementwise to the pdays column. -/
def noPreviousContactCol (pdaysCol : List Int) : List Int :=
  pdaysCol.map noPreviousContact

/-- Claim C5: for every row, the derived no_previous_contact value is 1 exactly
when that row's pdays is the sentinel 999, and 0 otherwise. -/
theorem no_previous_contact_indicator (pdaysCol : List Int) (i : Nat)
    (h : i < pdaysCol.length) (h2 : i < (noPreviousContactCol pdaysCol).length) :
    ((noPreviousContactCol pdaysCol).get ⟨i, h2⟩ = 1 ↔ pdaysCol.get ⟨i, h⟩ = 999) ∧
      ((noPreviousContactCol pdaysCol).get ⟨i, h2⟩ = 0 ↔ ¬ pdaysCol.get ⟨i, h⟩ = 999) := by
  have hv : (noPreviousContactCol pdaysCol).get ⟨i, h2⟩ =
      noPreviousContact (pdaysCol.get ⟨i, h⟩) := by
    simp [noPreviousContactCol]
  rw [hv]
  unfold noPreviousContact
  by_cases hp : pdaysCol.get ⟨i, h⟩ = 999 <;> simp [hp]

theorem no_previous_contact_witness :
    ((noPreviousContactCol [999, 3]).get ⟨0, by decide⟩ = 1 ↔
        ([999, 3] : List Int).get ⟨0, by decide⟩ = 999) ∧
      ((noPreviousContactCol [999, 3]).get ⟨0, by decide⟩ = 0 ↔
        ¬ ([999, 3] : List Int).get ⟨0, by decide⟩ = 999) :=
  no_previous_contact_indicator [999, 3] 0 (by decide) (by decide)

/-- Column payload of a dataframe column: numeric (int/float dtype) or
object/categorical (string dtype), one entry per row. -/
inductive ColData where
  | nums (xs : List Int)
  | cats (xs : List String)
deriving DecidableEq, Repr

/-- Dataframe, column-major: a list of (column name, column data) pairs in
column order. -/
abbrev DataFrame := List (String × ColData)

/-- One-hot expansion of a single categorical column `name` with row values
`xs`, as pd.get_dummies performs it: one indicator column per distinct value,
named name_value; the order of the distinct-value columns does not matter for
the properties proved here. -/
def dummyCols (name : String) (xs : List String) : List (String × ColData) :=
  xs.dedup.map (fun v =>
    (name ++ "_" ++ v, ColData.nums (xs.map (fun r => if r = v then (1 : Int) else 0))))

/-- Cell 9: `df_model_data = pd.get_dummies(df_model_data)` — numeric columns
pass through unchanged, every categorical column is replaced in place by its
indicator columns. -/
def getDummies (df : DataFrame) : DataFrame :=
  df.flatMap (fun c =>
    match c.2 with
    | ColData.nums _ => [c]
    | ColData.cats xs => dummyCols c.1 xs)

/-- Integer read of a column cell (0 if out of range or non-numeric); used to
express row-wise sums over indicator columns. -/
def colGetD (d : ColData) (i : Nat) : Int :=
  match d with
  | ColData.nums xs => xs.getD i 0
  | ColData.cats _ => 0

theorem sum_indicator_not_mem (r : String) :
    ∀ l : List String, r ∉ l →
      (l.map (fun v => if r = v then (1 : Int) else 0)).sum = 0 := by
  intro l
  induction l with
  | nil => intro _; rfl
  | cons a t ih =>
    intro hr
    have ha : r ≠ a := fun hc => hr (hc ▸ List.mem_cons_self a t)
    have ht : r ∉ t := fun hc => hr (List.mem_cons_of_mem a hc)
    simp [ha, ih ht]

theorem sum_indicator_nodup (r : String) :
    ∀ l : List String, l.Nodup → r ∈ l →
      (l.map (fun v => if r = v then (1 : Int) else 0)).sum = 1 := by
  intro l
  induction l with
  | nil => intro _ hr; cases hr
  | cons a t ih =>
    intro hnd hr
    by_cases ha : r = a
    · have hrt : r ∉ t := by
        rw [List.nodup_cons] at hnd
        exact ha ▸ hnd.1
      simp [ha, sum_indicator_not_mem a t (ha ▸ hrt)]
    · have hrt : r ∈ t := by
        cases List.mem_cons.mp hr with
        | inl hc => exact absurd hc ha
        | inr hc => exact hc
      rw [List.nodup_cons] at hnd
      simp [ha, ih hnd.2 hrt]

/-- Claim C6: one-hot expansion of a categorical column with k distinct values
produces exactly k indicator columns, and in every row the k indicator values
sum to 1. -/
theorem get_dummies_onehot (name : String) (xs : List String) (i : Nat)
    (h : i < xs.length) :
    (getDummies [(name, ColData.cats xs)]).length = xs.dedup.length ∧
      ((getDummies [(name, ColData.cats xs)]).map (fun c => colGetD c.2 i)).sum = 1 := by
  have hred : getDummies [(name, ColData.cats xs)] = dummyCols name xs := by
    simp [getDummies]
  constructor
  · rw [hred]
    simp [dummyCols]
  · rw [hred]
    unfold dummyCols
    rw [List.map_map]
    have hcell : ∀ v : String,
        ((fun c : String × ColData => colGetD c.2 i) ∘ fun v =>
          (name ++ "_" ++ v, ColData.nums (xs.map (fun r => if r = v then (1 : Int) else 0)))) v =
          (if xs[i] = v then (1 : Int) else 0) := by
      intro v
      show (xs.map (fun r => if r = v then (1 : Int) else 0)).getD i 0 =
        if xs[i] = v then (1 : Int) else 0
      have hlen : i < (xs.map (fun r => if r = v then (1 : Int) else 0)).length := by
        simpa using h
      rw [List.getD_eq_getElem _ _ hlen, List.getElem_map]
    rw [funext hcell]
    exact sum_indicator_nodup xs[i] xs.dedup (List.nodup_dedup xs)
      (List.mem_dedup.mpr (List.getElem_mem h))

theorem get_dummies_onehot_witness :
    (getDummies [("y", ColData.cats ["no", "yes", "no"])]).length =
        (["no", "yes", "no"] : List String).dedup.length ∧
      ((getDummies [("y", ColData.cats ["no", "yes", "no"])]).map
        (fun c => colGetD c.2 0)).sum = 1 :=
  get_dummies_onehot "y" ["no", "yes", "no"] 0 (by decide)

/-- Linear congruential step used to realize the seeded pseudorandom key
stream of the shuffle model. -/
def lcg (s : Nat) : Nat := (1103515245 * s + 12345) % 4294967296

/-- Key stream: repeated LCG applications starting from the seed. -/
def lcgIter (seed : Nat) : Nat → Nat
  | 0 => lcg seed
  | n + 1 => lcg (lcgIter seed n)

/-- Model of the pandas library call `df.sample(frac=1, random_state=seed)`
(cell 11): a deterministic pseudorandom permutation of the rows, fully
determined by the seed and the input, realized here as a stable sort of the
rows by a seeded key stream. Only the properties the claims rely on — the
result is a permutation of the input and a function of (seed, input) alone —
are meaningful; the exact permutation drawn by the pandas Mersenne-Twister
generator is not reproduced. -/
def sampleFrac1 (seed : Nat) (df : List ρ) : List ρ :=
  ((df.zip ((List.range df.length).map (lcgIter seed))).mergeSort
    (fun a b => decide (a.2 ≤ b.2))).map Prod.fst

/-- Model of `np.split(arr, [i1, i2])`: the three consecutive slices
arr[0:i1], arr[i1:i2], arr[i2:]. -/
def npSplit3 (i1 i2 : Nat) (df : List ρ) : List ρ × List ρ × List ρ :=
  (df.take i1, (df.take i2).drop i1, df.drop i2)

/-- Cell 11 shuffle-and-split:
`np.split(df_model_data.sample(frac=1, random_state=1729),
[int(0.7*len(df_model_data)), int(0.9*len(df_model_data))])`.
The cut points ⌊0.7·n⌋ and ⌊0.9·n⌋ are written in exact arithmetic as
7n/10 and 9n/10; the properties proved about the split hold for any ordered
pair of cut points, so they are insensitive to the rounding of the float
products in the source. -/
def trainValTest (df : List ρ) : List ρ × List ρ × List ρ :=
  npSplit3 (7 * df.length / 10) (9 * df.length / 10) (sampleFrac1 1729 df)

theorem npSplit3_append (i1 i2 : Nat) (h : i1 ≤ i2) (l : List ρ) :
    (npSplit3 i1 i2 l).1 ++ (npSplit3 i1 i2 l).2.1 ++ (npSplit3 i1 i2 l).2.2 = l := by
  unfold npSplit3
  have h1 : List.take i1 l = List.take i1 (List.take i2 l) := by
    rw [List.take_take, Nat.min_eq_left h]
  rw [List.append_assoc]
  show List.take i1 l ++ ((List.take i2 l).drop i1 ++ List.drop i2 l) = l
  rw [h1, ← List.append_assoc, List.take_append_drop, List.take_append_drop]

theorem sampleFrac1_perm (seed : Nat) (df : List ρ) : (sampleFrac1 seed df).Perm df := by
  unfold sampleFrac1
  have hlen : df.length ≤ ((List.range df.length).map (lcgIter seed)).length := by simp
  have hperm := List.mergeSort_perm
    (df.zip ((List.range df.length).map (lcgIter seed))) (fun a b => decide (a.2 ≤ b.2))
  have hmap := hperm.map Prod.fst
  rwa [List.map_fst_zip _ _ hlen] at hmap

/-- Claim C4: for every input dataframe with N rows, the shuffle-and-split
step yields three partitions whose lengths sum to N and which together are a
permutation of the input rows — every input row occurrence lands in exactly
one partition, none duplicated, none dropped. -/
theorem shuffle_split_partition (df : List ρ) :
    (trainValTest df).1.length + (trainValTest df).2.1.length +
        (trainValTest df).2.2.length = df.length ∧
      ((trainValTest df).1 ++ (trainValTest df).2.1 ++ (trainValTest df).2.2).Perm df := by
  have hle : 7 * df.length / 10 ≤ 9 * df.length / 10 :=
    Nat.div_le_div_right (by omega)
  have hperm : ((trainValTest df).1 ++ (trainValTest df).2.1 ++
      (trainValTest df).2.2).Perm df := by
    show ((npSplit3 (7 * df.length / 10) (9 * df.length / 10) (sampleFrac1 1729 df)).1 ++
      (npSplit3 (7 * df.length / 10) (9 * df.length / 10) (sampleFrac1 1729 df)).2.1 ++
      (npSplit3 (7 * df.length / 10) (9 * df.length / 10) (sampleFrac1 1729 df)).2.2).Perm df
    rw [npSplit3_append _ _ hle]
    exact sampleFrac1_perm 1729 df
  refine ⟨?_, hperm⟩
  have hlen := hperm.length_eq
  simp only [List.length_append] at hlen
  omega

/-- Claim C9: the shuffle-and-split step is deterministic — the shuffle is
keyed by the fixed seed 1729, so two runs on equal input dataframes produce
identical train, validation and test partitions. -/
theorem shuffle_split_deterministic (df₁ df₂ : List ρ) (h : df₁ = df₂) :
    trainValTest df₁ = trainValTest df₂ := by
  rw [h]

theorem shuffle_split_deterministic_witness :
    trainValTest ([10, 20, 30] : List Nat) = trainValTest [10, 20, 30] :=
  shuffle_split_deterministic [10, 20, 30] [10, 20, 30] rfl

/-- The six columns removed in cell 9: `df_model_data = df_data.drop(
["duration", "emp.var.rate", "cons.price.idx", "cons.conf.idx", "euribor3m",
"nr.employed"], axis=1)`. -/
def economicCols : List String :=
  ["duration", "emp.var.rate", "cons.price.idx", "cons.conf.idx", "euribor3m", "nr.employed"]

/-- Model of `DataFrame.drop(labels, axis=1)`: with the default errors
behavior pandas raises KeyError when any label is absent; otherwise the
listed columns are removed. -/
def dropColumns (labels : List String) (df : DataFrame) : Except String DataFrame :=
  if labels.all (fun n => df.any (fun c => c.1 == n)) then
    Except.ok (df.filter (fun c => ! labels.contains c.1))
  else Except.error "KeyError"

/-- Lines 208–218 of the source (cell 9): the column-transform step
`df_model_data = pd.get_dummies(df_data.drop([...six columns...], axis=1))`. -/
def columnTransform (df : DataFrame) : Except String DataFrame :=
  Except.map getDummies (dropColumns economicCols df)

theorem append_underscore_ne_duration (a b : String) : a ++ "_" ++ b ≠ "duration" := by
  intro h
  have hmem : '_' ∈ (a ++ "_" ++ b).data := by
    rw [String.data_append, String.data_append]
    have h1 : ("_" : String).data = ['_'] := rfl
    rw [h1]
    simp
  rw [h] at hmem
  simp at hmem

theorem mem_getDummies_name (d : DataFrame) (c' : String × ColData)
    (hc' : c' ∈ getDummies d) :
    (∃ c ∈ d, c'.1 = c.1) ∨ ∃ a b, c'.1 = a ++ "_" ++ b := by
  unfold getDummies at hc'
  rw [List.mem_flatMap] at hc'
  obtain ⟨c, hc, hmem⟩ := hc'
  cases h2 : c.2 with
  | nums xs =>
    rw [h2] at hmem
    have hmem' : c' ∈ [c] := hmem
    have he : c' = c := by simpa using hmem'
    exact Or.inl ⟨c, hc, by rw [he]⟩
  | cats xs =>
    rw [h2] at hmem
    have hmem' : c' ∈ dummyCols c.1 xs := hmem
    unfold dummyCols at hmem'
    rw [List.mem_map] at hmem'
    obtain ⟨v, hv, hev⟩ := hmem'
    exact Or.inr ⟨c.1, v, by rw [← hev]⟩

theorem getDummies_keeps_no_duration (d : DataFrame)
    (hd : ∀ c ∈ d, ¬ c.1 = "duration") :
    ∀ c' ∈ getDummies d, ¬ c'.1 = "duration" := by
  intro c' hc'
  rcases mem_getDummies_name d c' hc' with ⟨c, hc, he⟩ | ⟨a, b, he⟩
  · rw [he]
    exact hd c hc
  · rw [he]
    exact append_underscore_ne_duration a b

/-- Claim C8: the column-transform step is not idempotent — whenever it
succeeds on an input, applying it a second time to its own output raises a
missing-column error (the dropped columns, in particular duration, are gone
and cannot be re-dropped), rather than succeeding or silently corrupting the
data. -/
theorem column_transform_second_application_raises (df df' : DataFrame)
    (h : columnTransform df = Except.ok df') :
    columnTransform df' = Except.error "KeyError" := by
  have hno : ∀ c' ∈ df', ¬ c'.1 = "duration" := by
    unfold columnTransform at h
    cases hd : dropColumns economicCols df with
    | error e =>
      rw [hd] at h
      exact absurd h (by simp [Except.map])
    | ok d =>
      rw [hd] at h
      have hdf' : df' = getDummies d := by
        have h2 : Except.ok (getDummies d) = (Except.ok df' : Except String DataFrame) := h
        injection h2 with h3
        exact h3.symm
      unfold dropColumns at hd
      by_cases hcond : economicCols.all (fun n => df.any (fun c => c.1 == n)) = true
      · rw [if_pos hcond] at hd
        injection hd with hd2
        have hfil : ∀ c ∈ d, ¬ c.1 = "duration" := by
          intro c hcmem
          rw [← hd2] at hcmem
          obtain ⟨_, hp⟩ := List.mem_filter.mp hcmem
          intro hdur
          have hcont : economicCols.contains c.1 = true := by
            rw [hdur]
            simp [economicCols]
          rw [hcont] at hp
          exact absurd hp (by simp)
        rw [hdf']
        exact getDummies_keeps_no_duration d hfil
      · rw [if_neg hcond] at hd
        cases hd
  have hdur : df'.any (fun c => c.1 == "duration") = false := by
    rw [List.any_eq_false]
    intro c hc
    simp only [beq_iff_eq]
    intro hc2
    exact hno c hc hc2
  have hcond : economicCols.all (fun n => df'.any (fun c => c.1 == n)) = false := by
    rw [List.all_eq_false]
    refine ⟨"duration", by simp [economicCols], ?_⟩
    simp [hdur]
  unfold columnTransform dropColumns
  rw [hcond]
  simp [Except.map]

/-- Concrete input for the second-application run: the six economic columns
plus the categorical target column. -/
def dfSecondRun : DataFrame :=
  [("duration", ColData.nums [0]), ("emp.var.rate", ColData.nums [0]),
   ("cons.price.idx", ColData.nums [0]), ("cons.conf.idx", ColData.nums [0]),
   ("euribor3m", ColData.nums [0]), ("nr.employed", ColData.nums [0]),
   ("y", ColData.cats ["yes"])]

theorem column_transform_second_application_witness :
    columnTransform [("y_yes", ColData.nums [1])] = Except.error "KeyError" :=
  column_transform_second_application_raises dfSecondRun
    [("y_yes", ColData.nums [1])] rfl

/-- Model of `df[name]` single-column selection: KeyError when absent. -/
def selectColumn (name : String) (df : DataFrame) : Except String (String × ColData) :=
  match df.find? (fun c => c.1 == name) with
  | some c => Except.ok c
  | none => Except.error "KeyError"

/-- Lines 258–260 of the source (cell 11): the frame written out for each
partition, `pd.concat([part["y_yes"], part.drop(["y_no", "y_yes"], axis=1)],
axis=1)` — the target indicator column moved to the front, with y_no and
y_yes removed from the remainder. -/
def serializeFrame (df : DataFrame) : Except String DataFrame :=
  match selectColumn "y_yes" df, dropColumns ["y_no", "y_yes"] df with
  | Except.ok ycol, Except.ok rest => Except.ok (ycol :: rest)
  | Except.error e, _ => Except.error e
  | Except.ok _, Except.error e => Except.error e

/-- Number of rows of a frame: the length of its first column (pandas keeps
all columns the same length). -/
def nRows (df : DataFrame) : Nat :=
  match df with
  | [] => 0
  | c :: _ =>
    match c.2 with
    | ColData.nums xs => xs.length
    | ColData.cats xs => xs.length

/-- Cell text of one column at one row index, as it is printed to CSV. -/
def cellText (d : ColData) (i : Nat) : String :=
  match d with
  | ColData.nums xs => toString (xs.getD i 0)
  | ColData.cats xs => xs.getD i ""

/-- Model of `to_csv(..., index=False, header=h)`: the emitted lines, one
list of cell texts per line; with header=true the first line holds the
column names, with header=false (as in the source) no header line is
emitted. -/
def toCsvLines (header : Bool) (df : DataFrame) : List (List String) :=
  (if header then [df.map (fun c => c.1)] else []) ++
    (List.range (nRows df)).map (fun i => df.map (fun c => cellText c.2 i))

/-- Claim C7: each partition frame serialized to CSV has the target indicator
column y_yes first, contains no y_no column, and its CSV rendering with
header=False has exactly one line per data row — no header line. -/
theorem serialize_partition_shape (df df' : DataFrame)
    (h : serializeFrame df = Except.ok df') :
    (df'.map (fun c => c.1)).head? = some "y_yes" ∧
      "y_no" ∉ df'.map (fun c => c.1) ∧
      (toCsvLines false df').length = nRows df' := by
  unfold serializeFrame at h
  cases hy : selectColumn "y_yes" df with
  | error e =>
    rw [hy] at h
    cases h
  | ok ycol =>
    cases hd : dropColumns ["y_no", "y_yes"] df with
    | error e =>
      rw [hy, hd] at h
      cases h
    | ok rest =>
      rw [hy, hd] at h
      have hdf' : df' = ycol :: rest := by
        injection h with h2
        exact h2.symm
      have hyname : ycol.1 = "y_yes" := by
        unfold selectColumn at hy
        cases hf : List.find? (fun c => c.1 == "y_yes") df with
        | none => rw [hf] at hy; cases hy
        | some c =>
          rw [hf] at hy
          injection hy with hy2
          have hp := List.find?_some hf
          rw [hy2] at hp
          simpa using hp
      have hrest : ∀ c ∈ rest, ¬ c.1 = "y_no" := by
        unfold dropColumns at hd
        by_cases hcond : (["y_no", "y_yes"] : List String).all
            (fun n => df.any (fun c => c.1 == n)) = true
        · rw [if_pos hcond] at hd
          injection hd with hd2
          intro c hcmem
          rw [← hd2] at hcmem
          obtain ⟨_, hp⟩ := List.mem_filter.mp hcmem
          intro hno
          have hcont : (["y_no", "y_yes"] : List String).contains c.1 = true := by
            rw [hno]
            simp
          rw [hcont] at hp
          exact absurd hp (by simp)
        · rw [if_neg hcond] at hd
          cases hd
      subst hdf'
      refine ⟨by simp [hyname], ?_, by simp [toCsvLines]⟩
      intro hmem
      rw [List.map_cons, List.mem_cons] at hmem
      cases hmem with
      | inl hc => rw [hyname] at hc; exact absurd hc (by simp)
      | inr hc =>
        obtain ⟨c, hcmem, hcn⟩ := List.mem_map.mp hc
        exact hrest c hcmem hcn

/-- Concrete partition frame for the serialization run: a feature column and
the two one-hot target columns. -/
def dfPartition : DataFrame :=
  [("age", ColData.nums [30, 41]), ("y_no", ColData.nums [0, 1]),
   ("y_yes", ColData.nums [1, 0])]

theorem serialize_partition_witness :
    ((([("y_yes", ColData.nums [1, 0]), ("age", ColData.nums [30, 41])] :
          DataFrame).map (fun c => c.1)).head? = some "y_yes") ∧
      "y_no" ∉ ([("y_yes", ColData.nums [1, 0]), ("age", ColData.nums [30, 41])] :
          DataFrame).map (fun c => c.1) ∧
      (toCsvLines false [("y_yes", ColData.nums [1, 0]), ("age", ColData.nums [30, 41])]).length =
        nRows [("y_yes", ColData.nums [1, 0]), ("age", ColData.nums [30, 41])] :=
  serialize_partition_shape dfPartition
    [("y_yes", ColData.nums [1, 0]), ("age", ColData.nums [30, 41])] rfl
